import Mathlib

/-!
# moviterm: the transactional update handler and the add-form of the TUI

A shallow embedding of `API/update.go` (`updateMovieHandler`) and of the parts of
`TUI/main.go` that build the add form, capture its keys and fill the table,
followed by the properties proved about them.

Conventions of the embedding

* Go `int` values are `Int`; where a Go routine rejects values outside the
  64-bit range (`strconv.Atoi`) the bound is explicit.
* Go strings are `String`; character loops run over `String.toList`.
* A `*int` / `*float32` field is an `Option`.
* The relational store is external to the repository.  It is a record of five
  tables; a transaction works on a private copy that `Commit` installs and
  `Rollback` discards.  Failures that come from outside the handler (a broken
  connection, a full disk, ...) are chosen by an oracle `fails : Op → Bool`.
-/

namespace Moviterm

/-! ## Values of Go `float32` -/

/-- A `float32` value: not-a-number, an infinity, or the finite number
`(-1)^neg * mant * 2^exp`. -/
inductive F32 where
  | nan : F32
  | inf (neg : Bool) : F32
  | fin (neg : Bool) (mant : Nat) (exp : Int) : F32
  deriving DecidableEq

/-! ## `strconv.Atoi` -/

/-- The value of a decimal digit, `none` for any other character. -/
def digitVal (c : Char) : Option Nat :=
  if 48 ≤ c.toNat ∧ c.toNat ≤ 57 then some (c.toNat - 48) else none

/-- Base-10 accumulation of a run of digits; `none` as soon as a character is
not a digit (the `ch > 9` test of `strconv.Atoi`). -/
def parseDigits : List Char → Nat → Option Nat
  | [], acc => some acc
  | c :: cs, acc =>
    match digitVal c with
    | none => none
    | some d => parseDigits cs (acc * 10 + d)

/-- Sign handling and range check of `strconv.Atoi` on a 64-bit platform: an
optional `+` or `-`, then at least one digit, nothing else, and a value in
`[-2^63, 2^63 - 1]`. -/
def atoiChars (s : List Char) : Option Int :=
  let neg : Bool := s.head? = some '-'
  let ds : List Char := if s.head? = some '-' ∨ s.head? = some '+' then s.tail else s
  if ds = [] then none
  else
    match parseDigits ds 0 with
    | none => none
    | some n =>
      if neg then (if n ≤ 2 ^ 63 then some (-(n : Int)) else none)
      else (if n < 2 ^ 63 then some (n : Int) else none)

/-- Embedding of `strconv.Atoi`: `none` stands for a non-nil `err`. -/
def Atoi (s : String) : Option Int := atoiChars s.toList

/-! ## The store -/

/-- A row of `movies(id, date, title, year, rating, imdbRating)`. -/
structure MovieRow where
  id : Int
  date : Int
  title : String
  year : Int
  rating : Option Int
  imdbRating : Option F32
  deriving DecidableEq

/-- A row of `genres(id, name)` or of `directors(id, name)`. -/
structure NameRow where
  id : Int
  name : String
  deriving DecidableEq

/-- The persisted state: the five tables.  A link row is the pair
`(movieId, genreId)` resp. `(movieId, <second column>)`. -/
structure DB where
  movies : List MovieRow
  genres : List NameRow
  directors : List NameRow
  movies_genres : List (Int × Int)
  movies_directors : List (Int × Int)
  deriving DecidableEq

/-- The part of the schema that the handler's SQL text depends on and that is
created outside `update.go`: the name of the second column of each link table
and whether foreign keys are enforced. -/
structure Schema where
  genreLinkCol : String
  directorLinkCol : String
  foreignKeys : Bool
  deriving DecidableEq

/-- Modelled from the spec: the schema of section 6, `movies_genres(movieId,
genreId)`, `movies_directors(movieId, directorId)`, foreign keys enabled (the
statements that create the tables are not part of the sources at hand). -/
def specSchema : Schema :=
  { genreLinkCol := "genreId", directorLinkCol := "directorId", foreignKeys := true }

/-- The Go `Movie` struct that the JSON body is decoded into. -/
structure Movie where
  ID : Int
  Date : Int
  Title : String
  Year : Int
  Rating : Option Int
  ImdbRating : Option F32
  Genres : List String
  Directors : List String
  deriving DecidableEq

/-- An incoming `PUT /update/...` request.  `body` is the outcome of
`json.NewDecoder(r.Body).Decode(&movie)`: `none` when decoding returns an
error.  `path` is `r.URL.Path`; the router only hands over paths that start
with `/update/`. -/
structure Request where
  body : Option Movie
  path : String
  deriving DecidableEq

/-- What the handler writes to the `http.ResponseWriter`. -/
structure Response where
  status : Nat
  text : String
  deriving DecidableEq

/-- The store operations of the handler, in the order of the source; the loop
operations carry the 0-based iteration index. -/
inductive Op where
  | begin
  | updateMovie
  | deleteGenres
  | insertGenre (k : Nat)
  | selectGenre (k : Nat)
  | linkGenre (k : Nat)
  | deleteDirectors
  | insertDirector (k : Nat)
  | selectDirector (k : Nat)
  | linkDirector (k : Nat)
  | commit
  deriving DecidableEq

/-! ### The SQL statements -/

/-- The statement `UPDATE movies SET title = ?, year = ?, rating = ?, imdbRating = ?
WHERE id = ?`. -/
def updateMovieRows (rows : List MovieRow) (m : Movie) (id : Int) : List MovieRow :=
  rows.map fun r =>
    if r.id = id then
      { r with title := m.Title, year := m.Year, rating := m.Rating, imdbRating := m.ImdbRating }
    else r

/-- The statement `DELETE FROM <link table> WHERE movieId = ?`. -/
def deleteLinks (links : List (Int × Int)) (id : Int) : List (Int × Int) :=
  links.filter fun l => decide (l.1 ≠ id)

/-- The row id the store gives to a new row: 1 in an empty table, otherwise one
more than the largest id in use. -/
def nextId : List NameRow → Int
  | [] => 1
  | r :: rs => (rs.foldl (fun a x => max a x.id) r.id) + 1

/-- The statement `INSERT OR IGNORE INTO <names> (name) VALUES (?)`: nothing happens when the
name is present (the column is UNIQUE), otherwise a row with a new id is
appended. -/
def insertOrIgnoreName (tbl : List NameRow) (name : String) : List NameRow :=
  if tbl.any (fun r => decide (r.name = name)) then tbl
  else tbl ++ [{ id := nextId tbl, name := name }]

/-- The query `SELECT id FROM <names> WHERE name = ?` followed by `row.Scan`: the id of
the first matching row, `none` (`sql.ErrNoRows`) when there is none. -/
def selectId (tbl : List NameRow) (name : String) : Option Int :=
  (tbl.find? fun r => decide (r.name = name)).map fun r => r.id

/-- The statement
`INSERT OR IGNORE INTO <link table> (movieId, <stmtCol>) VALUES (?, ?)`.
The statement is an error (`none`) when the table has no column `stmtCol`; an
existing pair is ignored (the pair is unique, section 3 of the spec); with
foreign keys enforced a pair that names a missing movie or a missing target
row is an error, which `OR IGNORE` does not suppress. -/
def insertOrIgnoreLink (fk : Bool) (tableCol stmtCol : String)
    (movieIds targetIds : List Int) (links : List (Int × Int)) (m x : Int) :
    Option (List (Int × Int)) :=
  if stmtCol ≠ tableCol then none
  else if (m, x) ∈ links then some links
  else if fk = true ∧ ¬ (m ∈ movieIds ∧ x ∈ targetIds) then none
  else some (links ++ [(m, x)])

/-! ### The handler -/

/-- The call `tx.Rollback()`: the persisted state stays, the transaction's copy
`work` with whatever was written to it is discarded. -/
def Rollback (persisted _work : DB) : DB := persisted

/-- A call of `tx.Commit()` that succeeds: the transaction's copy becomes the
persisted state. -/
def Commit (_persisted work : DB) : DB := work

/-- The loop `for _, genre := range movie.Genres` (lines 64-100); `k` is the
index of the current iteration.  `Except.error w` stands for one of the three
error branches of the body (500, rollback, return), taken when the
transaction's copy was `w`. -/
def genresLoop (sc : Schema) (fails : Op → Bool) (id : Int) :
    Nat → List String → DB → Except DB DB
  | _, [], tx => Except.ok tx
  | k, genre :: rest, tx =>
    if fails (Op.insertGenre k) then Except.error tx
    else
      let tx1 : DB := { tx with genres := insertOrIgnoreName tx.genres genre }
      if fails (Op.selectGenre k) then Except.error tx1
      else
        match selectId tx1.genres genre with
        | none => Except.error tx1
        | some genreId =>
          if fails (Op.linkGenre k) then Except.error tx1
          else
            match insertOrIgnoreLink sc.foreignKeys sc.genreLinkCol "genreId"
                (tx1.movies.map fun r => r.id) (tx1.genres.map fun r => r.id)
                tx1.movies_genres id genreId with
            | none => Except.error tx1
            | some links => genresLoop sc fails id (k + 1) rest { tx1 with movies_genres := links }

/-- The loop `for _, director := range movie.Directors` (lines 116-152).  The
statement of line 142 names the columns `(movieId, genreId)`. -/
def directorsLoop (sc : Schema) (fails : Op → Bool) (id : Int) :
    Nat → List String → DB → Except DB DB
  | _, [], tx => Except.ok tx
  | k, director :: rest, tx =>
    if fails (Op.insertDirector k) then Except.error tx
    else
      let tx1 : DB := { tx with directors := insertOrIgnoreName tx.directors director }
      if fails (Op.selectDirector k) then Except.error tx1
      else
        match selectId tx1.directors director with
        | none => Except.error tx1
        | some directorId =>
          if fails (Op.linkDirector k) then Except.error tx1
          else
            match insertOrIgnoreLink sc.foreignKeys sc.directorLinkCol "genreId"
                (tx1.movies.map fun r => r.id) (tx1.directors.map fun r => r.id)
                tx1.movies_directors id directorId with
            | none => Except.error tx1
            | some links =>
              directorsLoop sc fails id (k + 1) rest { tx1 with movies_directors := links }

/-- Lines 36-152: the statements executed inside the transaction, on the
transaction's copy `tx`.  `Except.error w` stands for an error branch (500,
rollback, return) taken when the copy was `w`; `Except.ok w` for reaching
`tx.Commit()` with the copy `w`. -/
def txStatements (sc : Schema) (fails : Op → Bool) (movie : Movie) (id : Int) (tx : DB) :
    Except DB DB :=
  if fails Op.updateMovie then Except.error tx
  else
    let tx1 : DB := { tx with movies := updateMovieRows tx.movies movie id }
    if fails Op.deleteGenres then Except.error tx1
    else
      let tx2 : DB := { tx1 with movies_genres := deleteLinks tx1.movies_genres id }
      match genresLoop sc fails id 0 movie.Genres tx2 with
      | Except.error w => Except.error w
      | Except.ok tx3 =>
        if fails Op.deleteDirectors then Except.error tx3
        else
          let tx4 : DB := { tx3 with movies_directors := deleteLinks tx3.movies_directors id }
          directorsLoop sc fails id 0 movie.Directors tx4

/-- The answer of `http.Error(w, "Internal Server Error", 500)`. -/
def internalError : Response := { status := 500, text := "Internal Server Error\n" }

/-- Embedding of `updateMovieHandler`: the response and the persisted state
after the call.  `db` is the persisted state before the call.  `Begin` gives
the transaction a copy of it; no transaction exists when `Begin` fails.  The
error branches call `tx.Rollback()`.  A `tx.Commit()` that fails installs
nothing (the store commits atomically). -/
def updateMovieHandler (sc : Schema) (fails : Op → Bool) (db : DB) (r : Request) :
    Response × DB :=
  match r.body with
  | none => ({ status := 400, text := "Invalid JSON\n" }, db)
  | some movie =>
    if fails Op.begin then (internalError, db)
    else
      match Atoi (r.path.drop 8) with
      | none => ({ status := 400, text := "Invalid movie ID\n" }, Rollback db db)
      | some id =>
        match txStatements sc fails movie id db with
        | Except.error w => (internalError, Rollback db w)
        | Except.ok w =>
          if fails Op.commit then (internalError, db)
          else ({ status := 200, text := "Movie successfully updated.\n" }, Commit db w)

/-- The oracle under which no store operation fails for an external reason. -/
def noFailure : Op → Bool := fun _ => false

/-- The second column of the link rows of movie `id`. -/
def linkTargets (links : List (Int × Int)) (id : Int) : List Int :=
  (links.filter fun l => decide (l.1 = id)).map fun l => l.2

/-- The names joined to movie `id` through a link table:
`SELECT name FROM <links> JOIN <names> ON <second column> = <names>.id
WHERE movieId = ?`. -/
def linkedNames (tbl : List NameRow) (links : List (Int × Int)) (id : Int) : List String :=
  (linkTargets links id).flatMap fun g =>
    (tbl.filter fun r => decide (r.id = g)).map fun r => r.name

/-- The genre names linked to movie `id`. -/
def linkedGenres (db : DB) (id : Int) : List String :=
  linkedNames db.genres db.movies_genres id

/-- The director names linked to movie `id`. -/
def linkedDirectors (db : DB) (id : Int) : List String :=
  linkedNames db.directors db.movies_directors id

/-! ### Sample data -/

/-- A store with one movie (id 1) linked to the genres `A` and `B`. -/
def sampleDB : DB :=
  { movies := [{ id := 1, date := 1700000000, title := "Dune", year := 2021,
                 rating := some 9, imdbRating := none }],
    genres := [{ id := 1, name := "A" }, { id := 2, name := "B" }],
    directors := [],
    movies_genres := [(1, 1), (1, 2)],
    movies_directors := [] }

/-- A movie value with the given rating, genres and directors. -/
def sampleMovie (rating : Option Int) (genres directors : List String) : Movie :=
  { ID := 0, Date := 0, Title := "Dune", Year := 2021, Rating := rating, ImdbRating := none,
    Genres := genres, Directors := directors }

/-- The request of scenario 2: `PUT /update/1` with `Genres: ["B","C"]`. -/
def sampleRequest : Request :=
  { body := some (sampleMovie (some 9) ["B", "C"] []), path := "/update/1" }

/-- The oracle of scenario 4: only the second `INSERT INTO movies_genres`
fails. -/
def failSecondLink : Op → Bool := fun op => decide (op = Op.linkGenre 1)

/-- The oracle under which only `app.db.Begin()` fails. -/
def failBegin : Op → Bool := fun op => decide (op = Op.begin)

/-- A request with a well-formed body and a path id that is not a number. -/
def badIdRequest : Request :=
  { body := some (sampleMovie (some 9) ["B", "C"] []), path := "/update/abc" }

/-- A request whose body carries the rating 11. -/
def rating11Request : Request :=
  { body := some (sampleMovie (some 11) ["A", "B"] []), path := "/update/1" }

/-- A request that names one director. -/
def directorRequest : Request :=
  { body := some (sampleMovie (some 9) ["A", "B"] ["Villeneuve"]), path := "/update/1" }

/-! ### Notions used in the proofs about the handler -/

/-- The request's names in order of first occurrence: what the loop has linked
after it has gone through them. -/
def addDistinct (acc : List String) (g : String) : List String :=
  if g ∈ acc then acc else acc ++ [g]

/-- The invariant of the recreate loop: ids are unique, and the link rows of
the movie are, in order, the selected ids of the names linked so far. -/
def LoopInv (tbl : List NameRow) (links : List (Int × Int)) (id : Int) (acc : List String) :
    Prop :=
  (tbl.map fun r => r.id).Nodup ∧ (linkTargets links id).map some = acc.map (selectId tbl)

/-! ## `strconv.ParseFloat(s, 32)`

The routine of the Go standard library, followed step by step where it reads
the text (`special`, `readFloat`, `underscoreOK`); the conversion of the
digits that were read is the correctly rounded one (nearest `float32`, ties to
even, `ErrRange` on overflow), which is what the library computes. -/

/-- Go's `lower`: `c | ('x' - 'X')`, as a character code. -/
def lowerCode (c : Char) : Nat := c.toNat ||| 32

/-- Go's `commonPrefixLenIgnoreCase(s, pat)` for a lower-case `pat`. -/
def commonPrefixLenIgnoreCase : List Char → List Char → Nat
  | c :: s, p :: pat =>
    let c1 : Nat := if 65 ≤ c.toNat ∧ c.toNat ≤ 90 then c.toNat + 32 else c.toNat
    if c1 = p.toNat then commonPrefixLenIgnoreCase s pat + 1 else 0
  | _, _ => 0

/-- Go's `special`: the value and the number of characters consumed when the
text starts with an infinity or a NaN. -/
def special (s : List Char) : Option (F32 × Nat) :=
  match s with
  | [] => none
  | c :: rest =>
    if c = '+' ∨ c = '-' then
      let n := commonPrefixLenIgnoreCase rest "infinity".toList
      let n1 := if 3 < n ∧ n < 8 then 3 else n
      if n1 = 3 ∨ n1 = 8 then some (F32.inf (decide (c = '-')), 1 + n1) else none
    else if c = 'i' ∨ c = 'I' then
      let n := commonPrefixLenIgnoreCase s "infinity".toList
      let n1 := if 3 < n ∧ n < 8 then 3 else n
      if n1 = 3 ∨ n1 = 8 then some (F32.inf false, n1) else none
    else if c = 'n' ∨ c = 'N' then
      if commonPrefixLenIgnoreCase s "nan".toList = 3 then some (F32.nan, 3) else none
    else none

/-- The variables of the digit loop of `readFloat`.  The mantissa is kept in
full (the library keeps 19 digits and a `trunc` flag, and rounds as if it had
them all), so `ndMant` is `nd`. -/
structure ReadState where
  mantissa : Nat
  nd : Nat
  dp : Int
  sawdot : Bool
  sawdigits : Bool
  underscores : Bool
  deriving DecidableEq

/-- The loop labelled `loop` of `readFloat`: the state when it stops and the
characters it has not consumed. -/
def readDigits (hex : Bool) : List Char → ReadState → ReadState × List Char
  | [], st => (st, [])
  | c :: cs, st =>
    if c = '_' then readDigits hex cs { st with underscores := true }
    else if c = '.' then
      if st.sawdot then (st, c :: cs)
      else readDigits hex cs { st with sawdot := true, dp := st.nd }
    else if 48 ≤ c.toNat ∧ c.toNat ≤ 57 then
      if c = '0' ∧ st.nd = 0 then
        readDigits hex cs { st with sawdigits := true, dp := st.dp - 1 }
      else
        readDigits hex cs
          { st with sawdigits := true, nd := st.nd + 1,
                    mantissa := st.mantissa * (if hex then 16 else 10) + (c.toNat - 48) }
    else if hex = true ∧ 97 ≤ lowerCode c ∧ lowerCode c ≤ 102 then
      readDigits hex cs
        { st with sawdigits := true, nd := st.nd + 1,
                  mantissa := st.mantissa * 16 + (lowerCode c - 97 + 10) }
    else (st, c :: cs)

/-- The exponent loop of `readFloat`: digits and underscores; the value stops
growing once it has reached 10000. -/
def readExponent : List Char → Nat → Bool → Nat × Bool × List Char
  | [], e, us => (e, us, [])
  | c :: cs, e, us =>
    if c = '_' then readExponent cs e true
    else if 48 ≤ c.toNat ∧ c.toNat ≤ 57 then
      readExponent cs (if e < 10000 then e * 10 + (c.toNat - 48) else e) us
    else (e, us, c :: cs)

/-- The scan of `underscoreOK` over the number proper; `last` is the kind of
the previous character: 0 digit, 1 underscore, 2 anything else, 3 the start. -/
def underscoreScan (hex : Bool) : List Char → Nat → Bool
  | [], last => decide (last ≠ 1)
  | c :: cs, last =>
    if (48 ≤ c.toNat ∧ c.toNat ≤ 57) ∨ (hex = true ∧ 97 ≤ lowerCode c ∧ lowerCode c ≤ 102) then
      underscoreScan hex cs 0
    else if c = '_' then
      if last ≠ 0 then false else underscoreScan hex cs 1
    else if last = 1 then false
    else underscoreScan hex cs 2

/-- Go's `underscoreOK`: underscores only between digits (or after the base
prefix). -/
def underscoreOK (s : List Char) : Bool :=
  let s1 : List Char := if s.head? = some '-' ∨ s.head? = some '+' then s.tail else s
  match s1 with
  | c0 :: c1 :: rest =>
    if c0 = '0' ∧ (lowerCode c1 = 98 ∨ lowerCode c1 = 111 ∨ lowerCode c1 = 120) then
      underscoreScan (decide (lowerCode c1 = 120)) rest 0
    else underscoreScan false s1 3
  | _ => underscoreScan false s1 3

/-- What `readFloat` returns when `ok`: sign, mantissa, exponent (of 10, or of
2 for a hexadecimal mantissa), and the number of characters consumed. -/
structure ReadFloat where
  neg : Bool
  mantissa : Nat
  exp : Int
  hex : Bool
  consumed : Nat
  deriving DecidableEq

/-- Go's `readFloat`; `none` when it returns with `ok == false`. -/
def readFloat (s : List Char) : Option ReadFloat :=
  match s with
  | [] => none
  | c :: rest =>
    let neg : Bool := decide (c = '-')
    let s1 : List Char := if c = '+' ∨ c = '-' then rest else s
    let hex : Bool :=
      match s1 with
      | c0 :: c1 :: _ :: _ => decide (c0 = '0' ∧ lowerCode c1 = 120)
      | _ => false
    let s2 : List Char := if hex then s1.drop 2 else s1
    let (st, s3) := readDigits hex s2
      { mantissa := 0, nd := 0, dp := 0, sawdot := false, sawdigits := false,
        underscores := false }
    if st.sawdigits = false then none
    else
      let dp0 : Int := if st.sawdot then st.dp else st.nd
      let dp1 : Int := if hex then dp0 * 4 else dp0
      let ndMant : Int := if hex then (st.nd : Int) * 4 else st.nd
      let expChar : Nat := if hex then 112 else 101
      let finish (dp : Int) (us : Bool) (rest : List Char) : Option ReadFloat :=
        let consumed := s.length - rest.length
        if us = true ∧ underscoreOK (s.take consumed) = false then none
        else some { neg := neg, mantissa := st.mantissa,
                    exp := if st.mantissa ≠ 0 then dp - ndMant else 0,
                    hex := hex, consumed := consumed }
      match s3 with
      | [] => if hex then none else finish dp1 st.underscores []
      | e :: s4 =>
        if lowerCode e = expChar then
          match s4 with
          | [] => none
          | sg :: s5 =>
            let esign : Int := if sg = '-' then -1 else 1
            let s6 : List Char := if sg = '+' ∨ sg = '-' then s5 else s4
            match s6 with
            | [] => none
            | d :: _ =>
              if 48 ≤ d.toNat ∧ d.toNat ≤ 57 then
                let (ev, us, s7) := readExponent s6 0 st.underscores
                finish (dp1 + (ev : Int) * esign) us s7
              else none
        else if hex then none
        else finish dp1 st.underscores s3

/-- The smallest `p` at or above the start value with `num / den < 2^(24+p)`,
looking at `fuel` candidates. -/
def findExp (num den : Nat) : Nat → Int → Option Int
  | 0, _ => none
  | fuel + 1, p =>
    if (if 0 ≤ 24 + p then decide (num < den * 2 ^ (24 + p).toNat)
        else decide (num * 2 ^ (-(24 + p)).toNat < den)) then some p
    else findExp num den fuel (p + 1)

/-- The `float32` nearest to `num / den` (ties to even): mantissa below
`2^24` and exponent in `-149 .. 104`; `none` when the rounded magnitude exceeds
the largest finite `float32`. -/
def roundF32 (num den : Nat) : Option (Nat × Int) :=
  match findExp num den 254 (-149) with
  | none => none
  | some p =>
    let n1 : Nat := if 0 ≤ p then num else num * 2 ^ (-p).toNat
    let d1 : Nat := if 0 ≤ p then den * 2 ^ p.toNat else den
    let q : Nat := n1 / d1
    let r : Nat := n1 % d1
    let m : Nat := if d1 < 2 * r ∨ (2 * r = d1 ∧ q % 2 = 1) then q + 1 else q
    if m = 2 ^ 24 then (if p + 1 ≤ 104 then some (2 ^ 23, p + 1) else none)
    else some (m, p)

/-- Embedding of `strconv.ParseFloat(s, 32)`; `none` stands for a non-nil
`err` (syntax or range). -/
def ParseFloat32 (s : String) : Option F32 :=
  let cs := s.toList
  match special cs with
  | some (v, n) => if n = cs.length then some v else none
  | none =>
    match readFloat cs with
    | none => none
    | some rf =>
      if rf.consumed ≠ cs.length then none
      else
        let base : Nat := if rf.hex then 2 else 10
        let num : Nat := if 0 ≤ rf.exp then rf.mantissa * base ^ rf.exp.toNat else rf.mantissa
        let den : Nat := if 0 ≤ rf.exp then 1 else base ^ (-rf.exp).toNat
        match roundF32 num den with
        | none => none
        | some (m, p) => some (F32.fin rf.neg m p)

/-- The Go comparison `x <= 0`. -/
def F32.leZero : F32 → Bool
  | F32.nan => false
  | F32.inf neg => neg
  | F32.fin neg mant _ => neg || decide (mant = 0)

/-- The Go comparison `x > n` for a natural number `n`. -/
def F32.gtNat : F32 → Nat → Bool
  | F32.nan, _ => false
  | F32.inf neg, _ => !neg
  | F32.fin neg mant exp, n =>
    !neg && (if 0 ≤ exp then decide (n < mant * 2 ^ exp.toNat)
             else decide (n * 2 ^ (-exp).toNat < mant))

/-! ## The add form of the TUI -/

/-- The acceptance function of the `Year: ` field (lines 82-88). -/
def yearAccept (textToCheck : String) (_lastChar : Char) : Bool :=
  match Atoi textToCheck with
  | none => false
  | some _ => true

/-- The acceptance function of the `Your Rating: ` field (lines 89-97). -/
def ratingAccept (textToCheck : String) (_lastChar : Char) : Bool :=
  match Atoi textToCheck with
  | none => false
  | some val => if val ≤ 0 ∨ val > 10 then false else true

/-- The `for _, c := range textToCheck` loop of the `IMDB Rating: ` field
(lines 101-110): `false` when the loop returns `false`, `true` when it runs to
its end. -/
def imdbDecimalLoop : List Char → Bool → Nat → Bool
  | [], _, _ => true
  | c :: cs, afterDecimal, afterDecimalCount =>
    let afterDecimal1 : Bool := if c = '.' then true else afterDecimal
    let count1 : Nat :=
      if c = '.' then afterDecimalCount
      else if afterDecimal then afterDecimalCount + 1 else afterDecimalCount
    if count1 > 1 then false else imdbDecimalLoop cs afterDecimal1 count1

/-- The acceptance function of the `IMDB Rating: ` field (lines 98-118). -/
def imdbRatingAccept (textToCheck : String) (_lastChar : Char) : Bool :=
  if imdbDecimalLoop textToCheck.toList false 0 = false then false
  else
    match ParseFloat32 textToCheck with
    | none => false
    | some val => if val.leZero || val.gtNat 10 then false else true

/-- One typed character in an input field of the terminal library, as section
4.2 of the spec describes it: the acceptance function sees the prospective
buffer; the character is appended when it accepts and dropped when it does
not. -/
def typeRune (accept : String → Char → Bool) (buffer : String) (c : Char) : String :=
  if accept (buffer.push c) c then buffer.push c else buffer

/-- A sequence of typed characters. -/
def typeRunes (accept : String → Char → Bool) (buffer : String) (cs : List Char) : String :=
  cs.foldl (typeRune accept) buffer

/-- An item of a form: an input field (its label, its text, and whether its
changed-callback is `t.checkAddButton`) or a text view. -/
inductive FormItem where
  | inputField (label : String) (text : String) (changed : Bool)
  | textView (label : String) (text : String)
  deriving DecidableEq

/-- What has the focus: item `i` of the add form, button `b` of the add form,
the table, or something else. -/
inductive Focus where
  | formItem (i : Nat)
  | formButton (b : Nat)
  | table
  | other
  deriving DecidableEq

/-- The part of the `TUI` struct that the key capture of the add page reads
and writes: the items of `AddForm`, the disabled flag of its only button, the
visibility of the page `add`, and the focus. -/
structure TUI where
  AddForm : List FormItem
  addDisabled : Bool
  addVisible : Bool
  focus : Focus
  deriving DecidableEq

/-- The items that `main` adds to `AddForm` (lines 80-121), holding the given
texts: six input fields and one text view. -/
def addFormItems (title year rating imdb genres directors : String) : List FormItem :=
  [ FormItem.inputField "Title: " title true,
    FormItem.inputField "Year: " year true,
    FormItem.inputField "Your Rating: " rating false,
    FormItem.inputField "IMDB Rating: " imdb false,
    FormItem.inputField "Genres: " genres false,
    FormItem.inputField "Directors: " directors false,
    FormItem.textView ""
      "For adding multiple genres or directors, seperate each value with a comma ','" ]

/-- The text of item `i` when it is an input field. -/
def inputText (t : TUI) (i : Nat) : Option String :=
  match t.AddForm.get? i with
  | some (FormItem.inputField _ text _) => some text
  | _ => none

/-- Modelled from the spec: `checkAddButton`, which is defined outside
`main.go`.  The Add button is disabled until Title (item 0) and Year (item 1)
are both present. -/
def checkAddButton (t : TUI) : TUI :=
  { t with addDisabled :=
      decide (inputText t 0 = some "" ∨ inputText t 0 = none ∨
              inputText t 1 = some "" ∨ inputText t 1 = none) }

/-- The call `t.AddForm.GetFormItem(i).(*tview.InputField).SetText(text)`:
`none` (a panic) when there is no item `i` or when it is not an input field;
the changed-callback of the field runs after the text is set. -/
def setItemText (t : TUI) (i : Nat) (text : String) : Option TUI :=
  match t.AddForm.get? i with
  | some (FormItem.inputField label _ changed) =>
    let t1 : TUI := { t with AddForm := t.AddForm.set i (FormItem.inputField label text changed) }
    some (if changed then checkAddButton t1 else t1)
  | _ => none

/-- The loop `for i := 0; i < t.AddForm.GetFormItemCount()-2; i++` of the
`Esc` branch (lines 211-213), from index `i`, with `n` iterations to go. -/
def clearLoop : Nat → Nat → TUI → Option TUI
  | 0, _, t => some t
  | n + 1, i, t =>
    match setItemText t i "" with
    | none => none
    | some t1 => clearLoop n (i + 1) t1

/-- The result of `t.AddForm.GetFocusedItemIndex()`. -/
def getFocusedItemIndex (t : TUI) : Int × Int :=
  match t.focus with
  | Focus.formItem i => ((i : Int), -1)
  | Focus.formButton b => (-1, (b : Int))
  | _ => (-1, -1)

/-- The call `t.App.SetFocus(t.AddForm.GetFormItem(i))`: `none` (a panic) when
there is no item `i`. -/
def focusFormItem (t : TUI) (i : Nat) : Option TUI :=
  if i < t.AddForm.length then some { t with focus := Focus.formItem i } else none

/-- The keys that the capture of the add page tells apart. -/
inductive Key where
  | esc
  | ctrlJ
  | down
  | ctrlK
  | up
  | anyOther
  deriving DecidableEq

/-- The `Ctrl-J` / `Down` branch (lines 217-232). -/
def focusDown (t : TUI) : Option TUI :=
  let ib := getFocusedItemIndex t
  let step : Option TUI :=
    if 0 ≤ ib.1 ∧ ib.1 ≤ 4 then focusFormItem t (ib.1 + 1).toNat
    else if ib.1 = 5 then
      (if t.addDisabled then focusFormItem t 0 else some { t with focus := Focus.formButton 0 })
    else some t
  match step with
  | none => none
  | some t1 => if ib.2 ≠ -1 then focusFormItem t1 0 else some t1

/-- The `Ctrl-K` / `Up` branch (lines 233-248). -/
def focusUp (t : TUI) : Option TUI :=
  let ib := getFocusedItemIndex t
  let step : Option TUI :=
    if 1 ≤ ib.1 ∧ ib.1 ≤ 5 then focusFormItem t (ib.1 - 1).toNat
    else if ib.1 = 0 then
      (if t.addDisabled then focusFormItem t 5 else some { t with focus := Focus.formButton 0 })
    else some t
  match step with
  | none => none
  | some t1 => if ib.2 ≠ -1 then focusFormItem t1 5 else some t1

/-- The input capture of `AddGrid` (lines 208-252): the state after the
function has run, `none` when it panics. -/
def addGridInputCapture (key : Key) (t : TUI) : Option TUI :=
  match key with
  | Key.esc =>
    match clearLoop ((t.AddForm.length : Int) - 2).toNat 0 t with
    | none => none
    | some t1 => some { t1 with addDisabled := true, addVisible := false, focus := Focus.table }
  | Key.ctrlJ => focusDown t
  | Key.down => focusDown t
  | Key.ctrlK => focusUp t
  | Key.up => focusUp t
  | Key.anyOther => some t

/-- The add page as `main` builds it, with the given texts in its six input
fields. -/
def addModal (title year rating imdb genres directors : String) (disabled : Bool)
    (focus : Focus) : TUI :=
  { AddForm := addFormItems title year rating imdb genres directors,
    addDisabled := disabled, addVisible := true, focus := focus }

/-- The states in which a form item 0..5 has the focus, or the Add button
while it is enabled. -/
def focusInCycle (t : TUI) : Prop :=
  (∃ i, i ≤ 5 ∧ t.focus = Focus.formItem i) ∨
    (t.focus = Focus.formButton 0 ∧ t.addDisabled = false)

/-! ## The table -/

/-- Embedding of `strconv.Itoa`. -/
def Itoa (n : Int) : String :=
  match n with
  | Int.ofNat k => String.mk (Nat.toDigits 10 k)
  | Int.negSucc k => String.mk ('-' :: Nat.toDigits 10 (k + 1))

/-- The Go expression `movies[i]`: `none` (a panic) when `i` is out of range. -/
def indexMovies (movies : List Movie) (i : Int) : Option Movie :=
  if 0 ≤ i then movies.get? i.toNat else none

/-- Embedding of `textPlacer` (lines 324-369); `none` when an index
expression panics.  The two formatting routines of the Go library that it
calls, `time.Unix(d, 0).Format(time.DateOnly)` and
`strconv.FormatFloat(x, 'f', -1, 32)`, are parameters. -/
def textPlacer (formatDate : Int → String) (formatFloat : F32 → String)
    (movies : List Movie) (row col : Int) : Option String :=
  if row = 0 then
    if col = 0 then some "Date Added"
    else if col = 1 then some "Year"
    else if col = 2 then some "Title"
    else if col = 3 then some "Your Rating"
    else if col = 4 then some "IMDB Score"
    else if col = 5 then some "Directors"
    else if col = 6 then some "Genres"
    else some ""
  else
    if col = 0 then (indexMovies movies (row - 1)).map fun m => formatDate m.Date
    else if col = 1 then (indexMovies movies (row - 1)).map fun m => Itoa m.Year
    else if col = 2 then (indexMovies movies (row - 1)).map fun m => m.Title
    else if col = 3 then
      (indexMovies movies (row - 1)).map fun m =>
        match m.Rating with
        | some v => Itoa v
        | none => ""
    else if col = 4 then
      (indexMovies movies (row - 1)).map fun m =>
        match m.ImdbRating with
        | some x => formatFloat x
        | none => ""
    else if col = 5 then (indexMovies movies (row - 1)).map fun m => ", ".intercalate m.Directors
    else if col = 6 then (indexMovies movies (row - 1)).map fun m => ", ".intercalate m.Genres
    else some ""

/-- The `Text` of the cells that `fillTable` sets (lines 289-320): rows
`0 .. len(movies)`, columns `0 .. 6`. -/
def fillTableTexts (formatDate : Int → String) (formatFloat : F32 → String)
    (movies : List Movie) : List (List (Option String)) :=
  (List.range (movies.length + 1)).map fun (row : Nat) =>
    (List.range 7).map fun (col : Nat) =>
      textPlacer formatDate formatFloat movies (row : Int) (col : Int)

/-! ## Lemmas on the SQL statements -/

theorem foldl_max_bounds (rs : List NameRow) (a : Int) :
    a ≤ rs.foldl (fun a x => max a x.id) a ∧
      ∀ r ∈ rs, r.id ≤ rs.foldl (fun a x => max a x.id) a := by
  induction rs generalizing a with
  | nil => simp
  | cons r rs ih =>
    simp only [List.foldl_cons, List.mem_cons, forall_eq_or_imp]
    obtain ⟨h1, h2⟩ := ih (max a r.id)
    refine ⟨le_trans (le_max_left _ _) h1, le_trans (le_max_right _ _) h1, h2⟩

theorem lt_nextId (tbl : List NameRow) : ∀ r ∈ tbl, r.id < nextId tbl := by
  cases tbl with
  | nil => simp
  | cons r rs =>
    intro x hx
    obtain ⟨h1, h2⟩ := foldl_max_bounds rs r.id
    simp only [nextId]
    rcases List.mem_cons.1 hx with rfl | hx
    · omega
    · have := h2 x hx
      omega

theorem nextId_not_mem (tbl : List NameRow) : nextId tbl ∉ tbl.map fun r => r.id := by
  intro h
  obtain ⟨r, hr, he⟩ := List.mem_map.1 h
  have := lt_nextId tbl r hr
  omega

theorem insertOrIgnoreName_nodup (tbl : List NameRow) (g : String)
    (h : (tbl.map fun r => r.id).Nodup) :
    ((insertOrIgnoreName tbl g).map fun r => r.id).Nodup := by
  unfold insertOrIgnoreName
  split
  · exact h
  · rw [List.map_append, List.nodup_append]
    refine ⟨h, by simp, ?_⟩
    intro a ha hb
    simp only [List.map_cons, List.map_nil, List.mem_singleton] at hb
    subst hb
    exact nextId_not_mem tbl ha

theorem selectId_insertOrIgnoreName_of_some (tbl : List NameRow) (g n : String) (x : Int)
    (h : selectId tbl n = some x) : selectId (insertOrIgnoreName tbl g) n = some x := by
  unfold insertOrIgnoreName
  split
  · exact h
  · unfold selectId at h ⊢
    cases hf : tbl.find? fun r => decide (r.name = n) with
    | none => simp [hf] at h
    | some y =>
      rw [hf] at h
      simp [List.find?_append, hf] at h ⊢
      exact h

theorem selectId_mem (tbl : List NameRow) (n : String) (x : Int) (h : selectId tbl n = some x) :
    x ∈ tbl.map fun r => r.id := by
  unfold selectId at h
  cases hf : tbl.find? fun r => decide (r.name = n) with
  | none => simp [hf] at h
  | some y =>
    rw [hf] at h
    simp only [Option.map_some', Option.some.injEq] at h
    exact List.mem_map.2 ⟨y, List.mem_of_find?_eq_some hf, h⟩

/-- With unique ids, the rows joined to a selected id are the one row that was
selected. -/
theorem filter_id_of_selectId (tbl : List NameRow) (n : String) (x : Int)
    (hnd : (tbl.map fun r => r.id).Nodup) (h : selectId tbl n = some x) :
    ((tbl.filter fun r => decide (r.id = x)).map fun r => r.name) = [n] := by
  induction tbl with
  | nil => simp [selectId] at h
  | cons r rs ih =>
    rw [List.map_cons, List.nodup_cons] at hnd
    by_cases hn : r.name = n
    · have hx : r.id = x := by simpa [selectId, List.find?_cons, hn] using h
      have hrest : (rs.filter fun r => decide (r.id = x)) = [] := by
        rw [List.filter_eq_nil_iff]
        intro y hy hyx
        simp only [decide_eq_true_eq] at hyx
        apply hnd.1
        rw [hx, ← hyx]
        exact List.mem_map.2 ⟨y, hy, rfl⟩
      simp [List.filter_cons, hx, hrest, hn]
    · have hs : selectId rs n = some x := by simpa [selectId, List.find?_cons, hn] using h
      have hne : r.id ≠ x := by
        intro he
        apply hnd.1
        rw [he]
        exact selectId_mem rs n x hs
      simp only [List.filter_cons, hne, decide_False, Bool.false_eq_true, if_false]
      exact ih hnd.2 hs

theorem selectId_injective (tbl : List NameRow) (n g : String) (x : Int)
    (hnd : (tbl.map fun r => r.id).Nodup) (hn : selectId tbl n = some x)
    (hg : selectId tbl g = some x) : n = g := by
  have h1 := filter_id_of_selectId tbl n x hnd hn
  have h2 := filter_id_of_selectId tbl g x hnd hg
  rw [h1] at h2
  simpa using h2

theorem mem_linkTargets (links : List (Int × Int)) (id x : Int) :
    x ∈ linkTargets links id ↔ (id, x) ∈ links := by
  unfold linkTargets
  simp only [List.mem_map, List.mem_filter, decide_eq_true_eq]
  constructor
  · rintro ⟨⟨a, b⟩, ⟨hm, ha⟩, hb⟩
    simp only at ha hb
    subst ha hb
    exact hm
  · intro h
    exact ⟨(id, x), ⟨h, rfl⟩, rfl⟩

theorem insertOrIgnoreLink_targets (fk : Bool) (tc sc : String) (ms ts : List Int)
    (links links1 : List (Int × Int)) (id x : Int)
    (h : insertOrIgnoreLink fk tc sc ms ts links id x = some links1) :
    linkTargets links1 id =
      if x ∈ linkTargets links id then linkTargets links id else linkTargets links id ++ [x] := by
  unfold insertOrIgnoreLink at h
  simp only [mem_linkTargets]
  split at h
  · exact absurd h (by simp)
  · split at h
    · rename_i hmem
      simp only [Option.some.injEq] at h
      subst h
      simp [hmem]
    · rename_i hmem
      split at h
      · exact absurd h (by simp)
      · simp only [Option.some.injEq] at h
        subst h
        simp [hmem, linkTargets, List.filter_append]

theorem LoopInv.step {tbl : List NameRow} {links links1 : List (Int × Int)} {id x : Int}
    {acc : List String} {g : String} {fk : Bool} {tc sc : String} {ms ts : List Int}
    (hinv : LoopInv tbl links id acc)
    (hsel : selectId (insertOrIgnoreName tbl g) g = some x)
    (hins : insertOrIgnoreLink fk tc sc ms ts links id x = some links1) :
    LoopInv (insertOrIgnoreName tbl g) links1 id (addDistinct acc g) := by
  obtain ⟨hnd, hmap⟩ := hinv
  have hnd1 := insertOrIgnoreName_nodup tbl g hnd
  have hsome : ∀ n ∈ acc, ∃ y, selectId tbl n = some y ∧ y ∈ linkTargets links id := by
    intro n hn
    have : selectId tbl n ∈ (linkTargets links id).map some := by
      rw [hmap]
      exact List.mem_map.2 ⟨n, hn, rfl⟩
    obtain ⟨y, hy, he⟩ := List.mem_map.1 this
    exact ⟨y, he.symm, hy⟩
  have hcongr : acc.map (selectId (insertOrIgnoreName tbl g)) = acc.map (selectId tbl) := by
    apply List.map_congr_left
    intro n hn
    obtain ⟨y, hy, _⟩ := hsome n hn
    rw [hy]
    exact selectId_insertOrIgnoreName_of_some tbl g n y hy
  have hiff : x ∈ linkTargets links id ↔ g ∈ acc := by
    constructor
    · intro hx
      have : some x ∈ acc.map (selectId tbl) := by
        rw [← hmap]
        exact List.mem_map.2 ⟨x, hx, rfl⟩
      obtain ⟨n, hn, he⟩ := List.mem_map.1 this
      have he1 := selectId_insertOrIgnoreName_of_some tbl g n x he
      have := selectId_injective _ n g x hnd1 he1 hsel
      rw [← this]
      exact hn
    · intro hg
      obtain ⟨y, hy, hmem⟩ := hsome g hg
      have := selectId_insertOrIgnoreName_of_some tbl g g y hy
      rw [hsel] at this
      simp only [Option.some.injEq] at this
      rw [this]
      exact hmem
  refine ⟨hnd1, ?_⟩
  rw [insertOrIgnoreLink_targets fk tc sc ms ts links links1 id x hins]
  unfold addDistinct
  by_cases hg : g ∈ acc
  · rw [if_pos (hiff.2 hg), if_pos hg, hcongr]
    exact hmap
  · rw [if_neg (fun h => hg (hiff.1 h)), if_neg hg, List.map_append, List.map_append, hcongr,
      hmap]
    simp [hsel]

theorem LoopInv.linkedNames_eq {tbl : List NameRow} {links : List (Int × Int)} {id : Int}
    {acc : List String} (hinv : LoopInv tbl links id acc) : linkedNames tbl links id = acc := by
  obtain ⟨hnd, hmap⟩ := hinv
  unfold linkedNames
  generalize linkTargets links id = L at hmap
  induction acc generalizing L with
  | nil =>
    cases L with
    | nil => rfl
    | cons a L => simp at hmap
  | cons n acc ih =>
    cases L with
    | nil => simp at hmap
    | cons a L =>
      simp only [List.map_cons, List.cons.injEq] at hmap
      rw [List.flatMap_cons, filter_id_of_selectId tbl n a hnd hmap.1.symm, ih L hmap.2]
      rfl

theorem mem_foldl_addDistinct (gs acc : List String) (n : String) :
    n ∈ gs.foldl addDistinct acc ↔ n ∈ acc ∨ n ∈ gs := by
  induction gs generalizing acc with
  | nil => simp
  | cons g gs ih =>
    rw [List.foldl_cons, ih]
    unfold addDistinct
    by_cases hg : g ∈ acc
    · simp only [if_pos hg, List.mem_cons]
      constructor
      · rintro (h | h)
        · exact Or.inl h
        · exact Or.inr (Or.inr h)
      · rintro (h | h | h)
        · exact Or.inl h
        · exact Or.inl (h ▸ hg)
        · exact Or.inr h
    · simp only [if_neg hg, List.mem_append, List.mem_singleton, List.mem_cons]
      tauto

theorem nodup_foldl_addDistinct (gs acc : List String) (h : acc.Nodup) :
    (gs.foldl addDistinct acc).Nodup := by
  induction gs generalizing acc with
  | nil => exact h
  | cons g gs ih =>
    rw [List.foldl_cons]
    apply ih
    unfold addDistinct
    by_cases hg : g ∈ acc
    · rw [if_pos hg]
      exact h
    · rw [if_neg hg, List.nodup_append]
      refine ⟨h, by simp, ?_⟩
      intro a ha hb
      simp only [List.mem_singleton] at hb
      exact hg (hb ▸ ha)

theorem genresLoop_inv (sc : Schema) (fails : Op → Bool) (id : Int) (gs : List String) :
    ∀ (k : Nat) (tx tx1 : DB) (acc : List String),
      genresLoop sc fails id k gs tx = Except.ok tx1 →
      LoopInv tx.genres tx.movies_genres id acc →
      LoopInv tx1.genres tx1.movies_genres id (gs.foldl addDistinct acc) := by
  induction gs with
  | nil =>
    intro k tx tx1 acc h hinv
    simp only [genresLoop, Except.ok.injEq] at h
    subst h
    exact hinv
  | cons g gs ih =>
    intro k tx tx1 acc h hinv
    simp only [genresLoop] at h
    split at h
    · exact absurd h (by simp)
    · split at h
      · exact absurd h (by simp)
      · split at h
        · exact absurd h (by simp)
        · rename_i x hsel
          split at h
          · exact absurd h (by simp)
          · split at h
            · exact absurd h (by simp)
            · rename_i links hins
              exact ih _ _ _ _ h (hinv.step hsel hins)

theorem directorsLoop_genres (sc : Schema) (fails : Op → Bool) (id : Int) (ds : List String) :
    ∀ (k : Nat) (tx tx1 : DB), directorsLoop sc fails id k ds tx = Except.ok tx1 →
      tx1.genres = tx.genres ∧ tx1.movies_genres = tx.movies_genres ∧ tx1.movies = tx.movies := by
  induction ds with
  | nil =>
    intro k tx tx1 h
    simp only [directorsLoop, Except.ok.injEq] at h
    subst h
    exact ⟨rfl, rfl, rfl⟩
  | cons d ds ih =>
    intro k tx tx1 h
    simp only [directorsLoop] at h
    split at h
    · exact absurd h (by simp)
    · split at h
      · exact absurd h (by simp)
      · split at h
        · exact absurd h (by simp)
        · split at h
          · exact absurd h (by simp)
          · split at h
            · exact absurd h (by simp)
            · have := ih _ _ _ h
              exact this

theorem linkTargets_deleteLinks (links : List (Int × Int)) (id : Int) :
    linkTargets (deleteLinks links id) id = [] := by
  unfold linkTargets deleteLinks
  simp [List.filter_filter, List.filter_eq_nil_iff]

theorem genresLoop_others (sc : Schema) (fails : Op → Bool) (id : Int) (gs : List String) :
    ∀ (k : Nat) (tx tx1 : DB), genresLoop sc fails id k gs tx = Except.ok tx1 →
      tx1.movies = tx.movies ∧ tx1.directors = tx.directors ∧
        tx1.movies_directors = tx.movies_directors := by
  induction gs with
  | nil =>
    intro k tx tx1 h
    simp only [genresLoop, Except.ok.injEq] at h
    subst h
    exact ⟨rfl, rfl, rfl⟩
  | cons g gs ih =>
    intro k tx tx1 h
    simp only [genresLoop] at h
    split at h
    · exact absurd h (by simp)
    · split at h
      · exact absurd h (by simp)
      · split at h
        · exact absurd h (by simp)
        · split at h
          · exact absurd h (by simp)
          · split at h
            · exact absurd h (by simp)
            · have := ih _ _ _ h
              exact this

/-- What a run of the transaction's statements that reaches `Commit` has done
to the movie row and to the genre tables. -/
theorem txStatements_some (sc : Schema) (fails : Op → Bool) (m : Movie) (id : Int) (db tx : DB)
    (h : txStatements sc fails m id db = Except.ok tx) :
    tx.movies = updateMovieRows db.movies m id ∧
      ∃ tx3 : DB,
        genresLoop sc fails id 0 m.Genres
            { db with movies := updateMovieRows db.movies m id,
                      movies_genres := deleteLinks db.movies_genres id } = Except.ok tx3 ∧
          tx.genres = tx3.genres ∧ tx.movies_genres = tx3.movies_genres := by
  unfold txStatements at h
  by_cases h1 : fails Op.updateMovie = true
  · simp [h1] at h
  by_cases h2 : fails Op.deleteGenres = true
  · simp [h1, h2] at h
  simp only [h1, h2, if_false] at h
  cases hg : genresLoop sc fails id 0 m.Genres
      { db with movies := updateMovieRows db.movies m id,
                movies_genres := deleteLinks db.movies_genres id } with
  | error w => simp [hg] at h
  | ok tx3 =>
    simp only [hg] at h
    by_cases h3 : fails Op.deleteDirectors = true
    · simp [h3] at h
    simp only [h3, if_false] at h
    obtain ⟨e1, e2, e3⟩ := directorsLoop_genres _ _ _ _ _ _ _ h
    obtain ⟨e4, _, _⟩ := genresLoop_others _ _ _ _ _ _ _ hg
    refine ⟨?_, tx3, rfl, e1, e2⟩
    rw [e3]
    exact e4

/-- The handler answers 200 only after a committed run of the statements. -/
theorem updateMovieHandler_ok (sc : Schema) (fails : Op → Bool) (db : DB) (r : Request)
    (h : (updateMovieHandler sc fails db r).1.status = 200) :
    ∃ m id tx, r.body = some m ∧ Atoi (r.path.drop 8) = some id ∧
      txStatements sc fails m id db = Except.ok tx ∧
        (updateMovieHandler sc fails db r).2 = tx := by
  unfold updateMovieHandler at h ⊢
  cases hb : r.body with
  | none => simp [hb] at h
  | some m =>
    simp only [hb] at h ⊢
    by_cases hbeg : fails Op.begin = true
    · simp [hbeg, internalError] at h
    · simp only [hbeg] at h ⊢
      cases hid : Atoi (r.path.drop 8) with
      | none => simp [hid] at h
      | some id =>
        simp only [hid] at h ⊢
        cases htx : txStatements sc fails m id db with
        | error w => simp [htx, internalError] at h
        | ok tx =>
          simp only [htx] at h ⊢
          by_cases hc : fails Op.commit = true
          · simp [hc, internalError] at h
          · simp only [hc]
            exact ⟨m, id, tx, rfl, rfl, htx, rfl⟩

/-- Every path of the handler that does not end in the success ack leaves the
persisted state as it was. -/
theorem updateMovieHandler_not_ok (sc : Schema) (fails : Op → Bool) (db : DB) (r : Request)
    (h : (updateMovieHandler sc fails db r).1.status ≠ 200) :
    (updateMovieHandler sc fails db r).2 = db := by
  unfold updateMovieHandler at h ⊢
  cases hb : r.body with
  | none => rfl
  | some m =>
    simp only [hb] at h ⊢
    by_cases hbeg : fails Op.begin = true
    · simp [hbeg]
    · simp only [hbeg] at h ⊢
      cases hid : Atoi (r.path.drop 8) with
      | none => rfl
      | some id =>
        simp only [hid] at h ⊢
        cases htx : txStatements sc fails m id db with
        | error w => rfl
        | ok tx =>
          simp only [htx] at h ⊢
          by_cases hc : fails Op.commit = true
          · simp [hc]
          · simp [hc] at h

theorem genresLoop_fail_second (sc : Schema) (fails : Op → Bool) (id : Int) (g0 g1 : String)
    (rest : List String) (tx : DB) (hf : fails (Op.linkGenre 1) = true) :
    ∃ w, genresLoop sc fails id 0 (g0 :: g1 :: rest) tx = Except.error w := by
  simp only [genresLoop]
  split
  · exact ⟨_, rfl⟩
  · split
    · exact ⟨_, rfl⟩
    · split
      · exact ⟨_, rfl⟩
      · split
        · exact ⟨_, rfl⟩
        · split
          · exact ⟨_, rfl⟩
          · simp only [genresLoop, Nat.zero_add, hf, if_true]
            split
            · exact ⟨_, rfl⟩
            · split
              · exact ⟨_, rfl⟩
              · split <;> exact ⟨_, rfl⟩

theorem updateMovieRows_rating (rows : List MovieRow) (m : Movie) (id : Int) :
    ∀ row ∈ updateMovieRows rows m id, row.id = id → row.rating = m.Rating := by
  intro row hrow hid
  unfold updateMovieRows at hrow
  obtain ⟨r0, _, he⟩ := List.mem_map.1 hrow
  by_cases h0 : r0.id = id
  · rw [if_pos h0] at he
    rw [← he]
  · rw [if_neg h0] at he
    rw [he] at h0
    exact absurd hid h0

/-! ## The update handler: replaced associations, atomicity, status codes -/

/-- C1: whenever `updateMovieHandler` commits and answers "Movie successfully
updated.", the genre names linked to the movie in `movies_genres` are exactly
the names of the request's `Genres` list: a name is linked if and only if it
is in the list (so every former link to a genre the request does not name is
gone), no name is linked twice, and the movie has as many link rows as the
list has distinct names (none for the empty list).  The store is any store
whose `genres.id` column is a key. -/
theorem updateMovieHandler_genres_replaced (sc : Schema) (fails : Op → Bool) (db : DB)
    (r : Request) (hkey : (db.genres.map fun g => g.id).Nodup)
    (hok : (updateMovieHandler sc fails db r).1 =
      { status := 200, text := "Movie successfully updated.\n" }) :
    ∃ m id, r.body = some m ∧ Atoi (r.path.drop 8) = some id ∧
      (∀ n, n ∈ linkedGenres (updateMovieHandler sc fails db r).2 id ↔ n ∈ m.Genres) ∧
      (linkedGenres (updateMovieHandler sc fails db r).2 id).Nodup ∧
      (linkTargets (updateMovieHandler sc fails db r).2.movies_genres id).length =
        m.Genres.dedup.length := by
  have hstat : (updateMovieHandler sc fails db r).1.status = 200 := by rw [hok]
  obtain ⟨m, id, tx, hb, hid, htx, hdb⟩ := updateMovieHandler_ok sc fails db r hstat
  obtain ⟨_, tx3, hloop, hg, hl⟩ := txStatements_some sc fails m id db tx htx
  have hstart : LoopInv db.genres (deleteLinks db.movies_genres id) id [] :=
    ⟨hkey, by rw [linkTargets_deleteLinks]; rfl⟩
  have hinv := genresLoop_inv sc fails id m.Genres 0 _ tx3 [] hloop hstart
  have hlinked : linkedGenres tx id = m.Genres.foldl addDistinct [] := by
    unfold linkedGenres
    rw [hg, hl]
    exact hinv.linkedNames_eq
  have hnd : (m.Genres.foldl addDistinct []).Nodup :=
    nodup_foldl_addDistinct m.Genres [] List.nodup_nil
  have hmem : ∀ n, n ∈ m.Genres.foldl addDistinct [] ↔ n ∈ m.Genres := by
    intro n
    rw [mem_foldl_addDistinct]
    simp
  refine ⟨m, id, hb, hid, ?_, ?_, ?_⟩
  · intro n
    rw [hdb, hlinked]
    exact hmem n
  · rw [hdb, hlinked]
    exact hnd
  · rw [hdb, hl]
    have hlen := congrArg List.length hinv.2
    rw [List.length_map, List.length_map] at hlen
    rw [hlen]
    apply List.Perm.length_eq
    rw [List.perm_ext_iff_of_nodup hnd (List.nodup_dedup _)]
    intro n
    rw [hmem, List.mem_dedup]

/-- Scenario 2 of the spec: movie 1 with genres `A`, `B`, updated with
`["B","C"]`, is linked to exactly `B` and `C`, and the row of genre `A` is
still in `genres`. -/
theorem updateMovieHandler_genres_replaced_witness :
    linkedGenres (updateMovieHandler specSchema noFailure sampleDB sampleRequest).2 1 = ["B", "C"] ∧
    ({ id := 1, name := "A" } : NameRow) ∈
      (updateMovieHandler specSchema noFailure sampleDB sampleRequest).2.genres ∧
    ∃ m id, sampleRequest.body = some m ∧ Atoi (sampleRequest.path.drop 8) = some id ∧
      (∀ n, n ∈ linkedGenres (updateMovieHandler specSchema noFailure sampleDB sampleRequest).2 id ↔
        n ∈ m.Genres) ∧
      (linkedGenres (updateMovieHandler specSchema noFailure sampleDB sampleRequest).2 id).Nodup ∧
      (linkTargets (updateMovieHandler specSchema noFailure sampleDB sampleRequest).2.movies_genres
        id).length = m.Genres.dedup.length :=
  ⟨by decide, by decide,
    updateMovieHandler_genres_replaced specSchema noFailure sampleDB sampleRequest
      (by decide) (by decide)⟩

/-- C2: on the schema of the spec, with movie 1 present and no external
failure, a request that names the director `Villeneuve` is answered with 500
and nothing is persisted, so the movie is linked to no director at all: the
statement of line 142 names a column `genreId` that `movies_directors` does
not have. -/
theorem updateMovieHandler_directors_rejected :
    updateMovieHandler specSchema noFailure sampleDB directorRequest = (internalError, sampleDB) ∧
    linkedDirectors (updateMovieHandler specSchema noFailure sampleDB directorRequest).2 1 = [] := by
  decide

theorem directorsLoop_wrong_column (sc : Schema) (fails : Op → Bool) (id : Int) (k : Nat)
    (d : String) (ds : List String) (tx : DB) (hcol : sc.directorLinkCol ≠ "genreId") :
    ∃ w, directorsLoop sc fails id k (d :: ds) tx = Except.error w := by
  have hne : ("genreId" : String) ≠ sc.directorLinkCol := fun h => hcol h.symm
  simp only [directorsLoop, insertOrIgnoreLink, ne_eq, hne, not_false_eq_true, if_true]
  by_cases h1 : fails (Op.insertDirector k) = true
  · simp only [h1, if_true]
    exact ⟨_, rfl⟩
  by_cases h2 : fails (Op.selectDirector k) = true
  · simp only [h1, h2, if_true, if_false]
    exact ⟨_, rfl⟩
  simp only [h1, h2, if_false, ite_self]
  cases selectId (insertOrIgnoreName tx.directors d) d <;> exact ⟨_, rfl⟩

/-- On a schema whose `movies_directors` has no column `genreId`, no request
with a non-empty `Directors` list is ever answered with the success ack. -/
theorem updateMovieHandler_directors_never_ok (sc : Schema) (fails : Op → Bool) (db : DB)
    (r : Request) (m : Movie) (hcol : sc.directorLinkCol ≠ "genreId") (hb : r.body = some m)
    (hd : m.Directors ≠ []) : (updateMovieHandler sc fails db r).1.status ≠ 200 := by
  intro hstat
  obtain ⟨m1, id, tx, hb1, _, htx, _⟩ := updateMovieHandler_ok sc fails db r hstat
  rw [hb] at hb1
  simp only [Option.some.injEq] at hb1
  subst hb1
  unfold txStatements at htx
  by_cases h1 : fails Op.updateMovie = true
  · simp [h1] at htx
  by_cases h2 : fails Op.deleteGenres = true
  · simp [h1, h2] at htx
  simp only [h1, h2, if_false] at htx
  cases hg : genresLoop sc fails id 0 m.Genres
      { db with movies := updateMovieRows db.movies m id,
                movies_genres := deleteLinks db.movies_genres id } with
  | error w => simp [hg] at htx
  | ok tx3 =>
    simp only [hg] at htx
    by_cases h3 : fails Op.deleteDirectors = true
    · simp [h3] at htx
    simp only [h3, if_false] at htx
    cases hdir : m.Directors with
    | nil => exact hd hdir
    | cons d ds =>
      obtain ⟨w, hw⟩ := directorsLoop_wrong_column sc fails id 0 d ds
        { tx3 with movies_directors := deleteLinks tx3.movies_directors id } hcol
      rw [hdir, hw] at htx
      exact absurd htx (by simp)

/-- C3: atomicity of `updateMovieHandler`.  Whatever the store state, the
request and the set of failing store operations, a call that does not answer
200 leaves the persisted state equal to the state before the call; and when
the body decodes, the id parses and the second `INSERT INTO movies_genres`
fails, the answer is 500 and the persisted state is unchanged. -/
theorem updateMovieHandler_atomic (sc : Schema) (fails : Op → Bool) (db : DB) (r : Request) :
    ((updateMovieHandler sc fails db r).1.status ≠ 200 →
      (updateMovieHandler sc fails db r).2 = db) ∧
    (∀ (m : Movie) (id : Int) (g0 g1 : String) (rest : List String),
      r.body = some m → Atoi (r.path.drop 8) = some id → m.Genres = g0 :: g1 :: rest →
      fails (Op.linkGenre 1) = true →
      (updateMovieHandler sc fails db r).1.status = 500 ∧
        (updateMovieHandler sc fails db r).2 = db) := by
  refine ⟨updateMovieHandler_not_ok sc fails db r, ?_⟩
  intro m id g0 g1 rest hb hid hg hf
  have htx : ∃ w, txStatements sc fails m id db = Except.error w := by
    unfold txStatements
    by_cases h1 : fails Op.updateMovie = true
    · simp only [h1, if_true]
      exact ⟨_, rfl⟩
    by_cases h2 : fails Op.deleteGenres = true
    · simp only [h1, h2, if_true, if_false]
      exact ⟨_, rfl⟩
    obtain ⟨w, hw⟩ := genresLoop_fail_second sc fails id g0 g1 rest
      { db with movies := updateMovieRows db.movies m id,
                movies_genres := deleteLinks db.movies_genres id } hf
    exact ⟨w, by simp [h1, h2, hg, hw]⟩
  obtain ⟨w, htx⟩ := htx
  unfold updateMovieHandler
  simp only [hb, hid, htx]
  by_cases hbeg : fails Op.begin = true
  · simp [hbeg, internalError]
  · simp [hbeg, internalError, Rollback]

/-- Scenario 4 of the spec: with only the second `INSERT INTO movies_genres`
failing, the update of movie 1 is answered with 500 and the store is the one
before the call. -/
theorem updateMovieHandler_atomic_witness :
    (updateMovieHandler specSchema failBegin sampleDB sampleRequest).2 = sampleDB ∧
    (updateMovieHandler specSchema failSecondLink sampleDB sampleRequest).1.status = 500 ∧
    (updateMovieHandler specSchema failSecondLink sampleDB sampleRequest).2 = sampleDB :=
  ⟨(updateMovieHandler_atomic specSchema failBegin sampleDB sampleRequest).1 (by decide),
   (updateMovieHandler_atomic specSchema failSecondLink sampleDB sampleRequest).2
    (sampleMovie (some 9) ["B", "C"] []) 1 "B" "C" [] (by decide) (by decide) (by decide)
    (by decide)⟩

/-- C4, as stated, fails: a request with a well-formed body and the path
`/update/abc`, on a store where `Begin` fails, is answered with 500. -/
theorem updateMovieHandler_bad_id_begin_fails :
    badIdRequest.body ≠ none ∧ Atoi (badIdRequest.path.drop 8) = none ∧
    (updateMovieHandler specSchema failBegin sampleDB badIdRequest).1.status = 500 ∧
    (updateMovieHandler specSchema failBegin sampleDB badIdRequest).1.status ≠ 400 := by
  decide

/-- C4, amended: a request whose body does not decode, or whose path id does
not parse, never changes the persisted state.  An undecodable body is
answered with 400 whatever the store does.  A decodable body with an
unparsable id is answered with 400 when `Begin` succeeds and with 500 when
`Begin` fails, because the transaction is begun before the id is parsed. -/
theorem updateMovieHandler_malformed (sc : Schema) (fails : Op → Bool) (db : DB) (r : Request)
    (h : r.body = none ∨ Atoi (r.path.drop 8) = none) :
    (updateMovieHandler sc fails db r).2 = db ∧
    (r.body = none → (updateMovieHandler sc fails db r).1.status = 400) ∧
    (r.body ≠ none → fails Op.begin = false → (updateMovieHandler sc fails db r).1.status = 400) ∧
    (r.body ≠ none → fails Op.begin = true → (updateMovieHandler sc fails db r).1.status = 500) := by
  have hne : (updateMovieHandler sc fails db r).1.status ≠ 200 := by
    intro hstat
    obtain ⟨m, id, tx, hb, hid, _, _⟩ := updateMovieHandler_ok sc fails db r hstat
    rcases h with h | h
    · rw [h] at hb
      exact absurd hb (by simp)
    · rw [h] at hid
      exact absurd hid (by simp)
  refine ⟨updateMovieHandler_not_ok sc fails db r hne, ?_, ?_, ?_⟩
  · intro hb
    simp [updateMovieHandler, hb]
  · intro hb hbeg
    cases hm : r.body with
    | none => exact absurd hm hb
    | some m =>
      rcases h with h | h
      · exact absurd h hb
      · simp [updateMovieHandler, hm, hbeg, h]
  · intro hb hbeg
    cases hm : r.body with
    | none => exact absurd hm hb
    | some m => simp [updateMovieHandler, hm, hbeg, internalError]

/-- The amended C4 at `PUT /update/abc` with a well-formed body. -/
theorem updateMovieHandler_malformed_witness :
    (updateMovieHandler specSchema noFailure sampleDB badIdRequest).2 = sampleDB ∧
    (updateMovieHandler specSchema noFailure sampleDB badIdRequest).1.status = 400 :=
  ⟨(updateMovieHandler_malformed specSchema noFailure sampleDB badIdRequest
      (Or.inr (by decide))).1,
   (updateMovieHandler_malformed specSchema noFailure sampleDB badIdRequest
      (Or.inr (by decide))).2.2.1 (by decide) (by decide)⟩

/-- C8, as stated, fails: `PUT /update/1` with `Rating: 11` is answered with
200 and the row of movie 1, whose rating was 9, now has rating 11. -/
theorem updateMovieHandler_rating11_accepted :
    (updateMovieHandler specSchema noFailure sampleDB rating11Request).1.status = 200 ∧
    (sampleDB.movies.map fun row => row.rating) = [some 9] ∧
    ((updateMovieHandler specSchema noFailure sampleDB rating11Request).2.movies.map
      fun row => row.rating) = [some 11] := by
  decide

/-- C8, amended: the handler does not inspect the rating.  For a request
whose body carries a rating `v` outside 1..10, the answer is 400 exactly when
`Begin` succeeded and the path id does not parse, and when the answer is the
success ack every persisted row of that movie carries the rating `v`. -/
theorem updateMovieHandler_rating_unchecked (sc : Schema) (fails : Op → Bool) (db : DB)
    (r : Request) (m : Movie) (v : Int) (hb : r.body = some m) (hr : m.Rating = some v)
    (_hv : v < 1 ∨ 10 < v) :
    ((updateMovieHandler sc fails db r).1.status = 400 ↔
      (fails Op.begin = false ∧ Atoi (r.path.drop 8) = none)) ∧
    ((updateMovieHandler sc fails db r).1.status = 200 →
      ∃ id, Atoi (r.path.drop 8) = some id ∧
        ∀ row ∈ (updateMovieHandler sc fails db r).2.movies, row.id = id →
          row.rating = some v) := by
  constructor
  · unfold updateMovieHandler
    simp only [hb]
    by_cases hbeg : fails Op.begin = true
    · simp [hbeg, internalError]
    · simp only [hbeg, if_false]
      cases hid : Atoi (r.path.drop 8) with
      | none => simp
      | some id =>
        simp only
        cases htx : txStatements sc fails m id db with
        | error w => simp [internalError]
        | ok tx =>
          by_cases hc : fails Op.commit = true
          · simp [hc, internalError]
          · simp [hc]
  · intro hstat
    obtain ⟨m1, id, tx, hb1, hid, htx, hdb⟩ := updateMovieHandler_ok sc fails db r hstat
    rw [hb] at hb1
    simp only [Option.some.injEq] at hb1
    subst hb1
    refine ⟨id, hid, ?_⟩
    rw [hdb, (txStatements_some sc fails m id db tx htx).1, ← hr]
    exact updateMovieRows_rating db.movies m id

/-- The amended C8 at `PUT /update/1` with `Rating: 11`. -/
theorem updateMovieHandler_rating_unchecked_witness :
    ∃ id, Atoi (rating11Request.path.drop 8) = some id ∧
      ∀ row ∈ (updateMovieHandler specSchema noFailure sampleDB rating11Request).2.movies,
        row.id = id → row.rating = some 11 :=
  (updateMovieHandler_rating_unchecked specSchema noFailure sampleDB rating11Request
    (sampleMovie (some 11) ["A", "B"] []) 11 (by decide) (by decide) (by decide)).2 (by decide)

/-! ## The add form: Esc, focus cycle, live acceptance -/

/-- C5: with `Villeneuve` in the Directors field, `Esc` in the add page empties
items 0..4 only; item 5 still holds `Villeneuve`.  The Add button is disabled,
the page hidden and the focus on the table.  The loop bound
`GetFormItemCount()-2` is 5, because the form has seven items and its button
is not one of them. -/
theorem addGridInputCapture_esc_keeps_directors :
    addGridInputCapture Key.esc
        (addModal "Dune" "2021" "9" "8.0" "Sci-Fi" "Villeneuve" false (Focus.formItem 5)) =
      some { AddForm := addFormItems "" "" "" "" "" "Villeneuve",
             addDisabled := true, addVisible := false, focus := Focus.table } := by
  decide

/-- Whatever the six texts, `Esc` empties the first five input fields and
leaves the text of the Directors field as it was. -/
theorem addGridInputCapture_esc (title year rating imdb genres directors : String)
    (disabled : Bool) (focus : Focus) :
    addGridInputCapture Key.esc (addModal title year rating imdb genres directors disabled focus) =
      some { AddForm := addFormItems "" "" "" "" "" directors,
             addDisabled := true, addVisible := false, focus := Focus.table } := by
  rfl

theorem focusDown_item (t : TUI) (i : Nat) (hform : 6 ≤ t.AddForm.length) (hi : i ≤ 5)
    (hf : t.focus = Focus.formItem i) :
    focusDown t = some { t with focus :=
      if i ≤ 4 then Focus.formItem (i + 1)
      else if t.addDisabled then Focus.formItem 0 else Focus.formButton 0 } := by
  have h0 : 0 < t.AddForm.length := by omega
  have h1 : 1 < t.AddForm.length := by omega
  have h2 : 2 < t.AddForm.length := by omega
  have h3 : 3 < t.AddForm.length := by omega
  have h4 : 4 < t.AddForm.length := by omega
  have h5 : 5 < t.AddForm.length := by omega
  unfold focusDown getFocusedItemIndex
  rw [hf]
  interval_cases i <;> cases hd : t.addDisabled <;>
    simp [focusFormItem, h0, h1, h2, h3, h4, h5, hd]

theorem focusUp_item (t : TUI) (i : Nat) (hform : 6 ≤ t.AddForm.length) (hi : i ≤ 5)
    (hf : t.focus = Focus.formItem i) :
    focusUp t = some { t with focus :=
      if 1 ≤ i then Focus.formItem (i - 1)
      else if t.addDisabled then Focus.formItem 5 else Focus.formButton 0 } := by
  have h0 : 0 < t.AddForm.length := by omega
  have h1 : 1 < t.AddForm.length := by omega
  have h2 : 2 < t.AddForm.length := by omega
  have h3 : 3 < t.AddForm.length := by omega
  have h4 : 4 < t.AddForm.length := by omega
  have h5 : 5 < t.AddForm.length := by omega
  unfold focusUp getFocusedItemIndex
  rw [hf]
  interval_cases i <;> cases hd : t.addDisabled <;>
    simp [focusFormItem, h0, h1, h2, h3, h4, h5, hd]

theorem focusDown_button (t : TUI) (hform : 6 ≤ t.AddForm.length)
    (hf : t.focus = Focus.formButton 0) :
    focusDown t = some { t with focus := Focus.formItem 0 } := by
  have h0 : 0 < t.AddForm.length := by omega
  unfold focusDown getFocusedItemIndex
  rw [hf]
  simp [focusFormItem, h0]

theorem focusUp_button (t : TUI) (hform : 6 ≤ t.AddForm.length)
    (hf : t.focus = Focus.formButton 0) :
    focusUp t = some { t with focus := Focus.formItem 5 } := by
  have h5 : 5 < t.AddForm.length := by omega
  unfold focusUp getFocusedItemIndex
  rw [hf]
  simp [focusFormItem, h5]

theorem focusDown_focusUp (t : TUI) (hform : 6 ≤ t.AddForm.length) (hc : focusInCycle t) :
    (focusDown t).bind focusUp = some t ∧ (focusUp t).bind focusDown = some t := by
  obtain ⟨items, dis, vis, foc⟩ := t
  simp only at hform
  have h0 : 0 < items.length := by omega
  have h1 : 1 < items.length := by omega
  have h2 : 2 < items.length := by omega
  have h3 : 3 < items.length := by omega
  have h4 : 4 < items.length := by omega
  have h5 : 5 < items.length := by omega
  rcases hc with ⟨i, hi, hf⟩ | ⟨hf, hd⟩
  · simp only at hf
    subst hf
    interval_cases i <;> cases dis <;>
      simp [focusDown, focusUp, getFocusedItemIndex, focusFormItem, h0, h1, h2, h3, h4, h5]
  · simp only at hf hd
    subst hf hd
    simp [focusDown, focusUp, getFocusedItemIndex, focusFormItem, h0, h1, h2, h3, h4, h5]

/-- C7: the key capture of the add page moves the focus as specified.  On
`Ctrl-J` or `Down`: from item `i <= 4` to item `i+1`; from item 5 to the Add
button when it is enabled, to item 0 when it is disabled.  On `Ctrl-K` or
`Up`: from item `i` in 1..5 to item `i-1`; from item 0 to the Add button when
it is enabled, to item 5 when it is disabled.  On the states where an item
0..5 or the enabled Add button has the focus, the up key undoes the down key
and the down key undoes the up key (the whole state is restored). -/
theorem addGridInputCapture_focus_cycle (t : TUI) (kd ku : Key)
    (hform : 6 ≤ t.AddForm.length)
    (hkd : kd = Key.ctrlJ ∨ kd = Key.down) (hku : ku = Key.ctrlK ∨ ku = Key.up) :
    (∀ i, i ≤ 4 → t.focus = Focus.formItem i →
      addGridInputCapture kd t = some { t with focus := Focus.formItem (i + 1) }) ∧
    (t.focus = Focus.formItem 5 →
      addGridInputCapture kd t =
        some { t with focus := (if t.addDisabled then Focus.formItem 0 else Focus.formButton 0) }) ∧
    (∀ i, 1 ≤ i → i ≤ 5 → t.focus = Focus.formItem i →
      addGridInputCapture ku t = some { t with focus := Focus.formItem (i - 1) }) ∧
    (t.focus = Focus.formItem 0 →
      addGridInputCapture ku t =
        some { t with focus := (if t.addDisabled then Focus.formItem 5 else Focus.formButton 0) }) ∧
    (focusInCycle t →
      (addGridInputCapture kd t).bind (addGridInputCapture ku) = some t ∧
      (addGridInputCapture ku t).bind (addGridInputCapture kd) = some t) := by
  have hd : addGridInputCapture kd = focusDown := by
    rcases hkd with h | h <;> subst h <;> rfl
  have hu : addGridInputCapture ku = focusUp := by
    rcases hku with h | h <;> subst h <;> rfl
  rw [hd, hu]
  refine ⟨?_, ?_, ?_, ?_, focusDown_focusUp t hform⟩
  · intro i hi hf
    rw [focusDown_item t i hform (by omega) hf, if_pos hi]
  · intro hf
    rw [focusDown_item t 5 hform (by omega) hf]
    simp
  · intro i h1 hi hf
    rw [focusUp_item t i hform hi hf, if_pos h1]
  · intro hf
    rw [focusUp_item t 0 hform (by omega) hf]
    simp

/-- The focus cycle of scenario 6: from item 5 with the Add button enabled,
`Ctrl-J` leads to the button and `Ctrl-K` back to item 5. -/
theorem addGridInputCapture_focus_cycle_witness :
    addGridInputCapture Key.ctrlJ
        (addModal "X" "2020" "" "" "" "" false (Focus.formItem 5)) =
      some (addModal "X" "2020" "" "" "" "" false (Focus.formButton 0)) ∧
    (addGridInputCapture Key.ctrlJ
        (addModal "X" "2020" "" "" "" "" false (Focus.formItem 5))).bind
      (addGridInputCapture Key.ctrlK) =
      some (addModal "X" "2020" "" "" "" "" false (Focus.formItem 5)) :=
  ⟨(addGridInputCapture_focus_cycle (addModal "X" "2020" "" "" "" "" false (Focus.formItem 5))
      Key.ctrlJ Key.ctrlK (by decide) (Or.inl rfl) (Or.inl rfl)).2.1 rfl,
   ((addGridInputCapture_focus_cycle (addModal "X" "2020" "" "" "" "" false (Focus.formItem 5))
      Key.ctrlJ Key.ctrlK (by decide) (Or.inl rfl) (Or.inl rfl)).2.2.2.2
      (Or.inl ⟨5, by decide, rfl⟩)).1⟩

/-- C9, as stated, fails: after `2`, `0`, `a`, `1` the Year buffer is not
`20`. -/
theorem typeRunes_year_not_20 :
    typeRunes yearAccept "" ['2', '0', 'a', '1'] ≠ "20" := by
  decide

/-- C9, amended: typing `2`, `0`, `a`, `1` into the empty Year field gives the
buffer `201`.  The keystroke `a` is rejected (the buffer is `20` after it), and
the keystroke `1` that follows is accepted because `201` parses as an
integer. -/
theorem typeRunes_year_201 :
    typeRunes yearAccept "" ['2', '0'] = "20" ∧
    yearAccept "20a" 'a' = false ∧
    typeRunes yearAccept "" ['2', '0', 'a'] = "20" ∧
    yearAccept "201" '1' = true ∧
    typeRunes yearAccept "" ['2', '0', 'a', '1'] = "201" := by
  decide

theorem imdbDecimalLoop_count (cs : List Char) (afterDecimal : Bool) (n : Nat) (hn : n ≤ 1)
    (h : imdbDecimalLoop cs afterDecimal n = true) :
    n + (if afterDecimal then (cs.filter fun c => decide (c ≠ '.')).length
         else ((cs.dropWhile fun c => decide (c ≠ '.')).filter
            fun c => decide (c ≠ '.')).length) ≤ 1 := by
  induction cs generalizing afterDecimal n with
  | nil => simpa using hn
  | cons c cs ih =>
    unfold imdbDecimalLoop at h
    by_cases hc : c = '.'
    · subst hc
      simp only [if_true] at h
      have hgt : ¬ n > 1 := by omega
      simp only [hgt, if_false] at h
      have := ih true n hn h
      cases afterDecimal <;> simpa [List.dropWhile_cons, List.filter_cons] using this
    · simp only [hc, if_false] at h
      cases afterDecimal with
      | false =>
        simp only [Bool.false_eq_true, if_false] at h
        have hgt : ¬ n > 1 := by omega
        simp only [hgt, if_false] at h
        have := ih false n hn h
        simpa [List.dropWhile_cons, hc] using this
      | true =>
        simp only [if_true] at h
        by_cases hgt : n + 1 > 1
        · simp [hgt] at h
        · simp only [hgt, if_false] at h
          have := ih true (n + 1) (by omega) h
          simp [List.filter_cons, hc] at this ⊢
          omega

/-- Whatever the text, the IMDB Rating field accepts it only if at most one
character other than `.` follows its first `.`. -/
theorem imdbRatingAccept_decimals (text : String) (c : Char)
    (h : imdbRatingAccept text c = true) :
    ((text.toList.dropWhile fun c => decide (c ≠ '.')).filter
      fun c => decide (c ≠ '.')).length ≤ 1 := by
  unfold imdbRatingAccept at h
  cases hl : imdbDecimalLoop text.toList false 0 with
  | false =>
    rw [hl] at h
    simp at h
  | true => simpa using imdbDecimalLoop_count text.toList false 0 (by omega) hl

/-! ## The table texts -/

theorem toDigitsCore_ne_nil (b fuel n : Nat) (ds : List Char) (h : ds ≠ []) :
    Nat.toDigitsCore b fuel n ds ≠ [] := by
  induction fuel generalizing n ds with
  | zero => simpa [Nat.toDigitsCore] using h
  | succ fuel ih =>
    simp only [Nat.toDigitsCore]
    split
    · simp
    · exact ih _ _ (by simp)

theorem toDigits_ne_nil (b n : Nat) : Nat.toDigits b n ≠ [] := by
  unfold Nat.toDigits
  simp only [Nat.toDigitsCore]
  split
  · simp
  · exact toDigitsCore_ne_nil _ _ _ _ (by simp)

theorem Itoa_ne_empty (v : Int) : Itoa v ≠ "" := by
  intro h
  have hd : (Itoa v).data = [] := by rw [h]
  cases v with
  | ofNat k => exact toDigits_ne_nil 10 k hd
  | negSucc k => simp [Itoa] at hd

theorem indexMovies_in_range (movies : List Movie) (r : Int) (h1 : 1 ≤ r)
    (h2 : r ≤ movies.length) : ∃ m, indexMovies movies (r - 1) = some m := by
  unfold indexMovies
  have hlt : (r - 1).toNat < movies.length := by omega
  rw [if_pos (by omega), List.get?_eq_get hlt]
  exact ⟨_, rfl⟩

/-- C10: for a data row `r` with `1 <= r <= len(movies)`, `textPlacer` indexes
inside the list whatever the column, so it returns a text; the text of column
3 is empty exactly when the rating of `movies[r-1]` is absent, and a present
rating `v` (0 included) is rendered by `strconv.Itoa`; the text of column 4 is
empty exactly when the IMDB rating is absent.  Row 0 holds the seven header
titles.  `strconv.FormatFloat` never returns the empty string, which is the
assumption `hfmt`. -/
theorem textPlacer_cells (formatDate : Int → String) (formatFloat : F32 → String)
    (movies : List Movie) (hfmt : ∀ x, formatFloat x ≠ "") :
    (∀ r : Int, 1 ≤ r → r ≤ movies.length →
      ∃ m, indexMovies movies (r - 1) = some m ∧
        (∀ col, ∃ text, textPlacer formatDate formatFloat movies r col = some text) ∧
        (textPlacer formatDate formatFloat movies r 3 = some "" ↔ m.Rating = none) ∧
        (∀ v, m.Rating = some v →
          textPlacer formatDate formatFloat movies r 3 = some (Itoa v)) ∧
        (textPlacer formatDate formatFloat movies r 4 = some "" ↔ m.ImdbRating = none)) ∧
    Itoa 0 = "0" ∧
    (List.range 7).map (fun (col : Nat) => textPlacer formatDate formatFloat movies 0 (col : Int)) =
      [some "Date Added", some "Year", some "Title", some "Your Rating", some "IMDB Score",
       some "Directors", some "Genres"] := by
  refine ⟨?_, by decide, by rfl⟩
  intro r h1 h2
  obtain ⟨m, hm⟩ := indexMovies_in_range movies r h1 h2
  have hr : r ≠ 0 := by omega
  refine ⟨m, hm, ?_, ?_, ?_, ?_⟩
  · intro col
    unfold textPlacer
    rw [if_neg hr, hm]
    simp only [Option.map_some']
    repeat' split
    all_goals exact ⟨_, rfl⟩
  · unfold textPlacer
    rw [if_neg hr, hm]
    simp only [Option.map_some']
    cases hrat : m.Rating with
    | none => simp
    | some v =>
      have := Itoa_ne_empty v
      simp [this]
  · intro v hv
    unfold textPlacer
    rw [if_neg hr, hm]
    simp [hv]
  · unfold textPlacer
    rw [if_neg hr, hm]
    simp only [Option.map_some']
    cases hrat : m.ImdbRating with
    | none => simp
    | some x =>
      have := hfmt x
      simp [this]

/-- The table of one movie without ratings: the cells of columns 3 and 4 of its
row are empty, and with the rating 0 the cell of column 3 reads `0`. -/
theorem textPlacer_cells_witness :
    textPlacer (fun _ => "2023-11-14") (fun _ => "8") [sampleMovie none [] []] 1 3 = some "" ∧
    textPlacer (fun _ => "2023-11-14") (fun _ => "8") [sampleMovie none [] []] 1 4 = some "" ∧
    textPlacer (fun _ => "2023-11-14") (fun _ => "8") [sampleMovie (some 0) [] []] 1 3 =
      some "0" ∧
    ∃ m, indexMovies [sampleMovie none [] []] (1 - 1) = some m ∧
      (∀ col, ∃ text, textPlacer (fun _ => "2023-11-14") (fun _ => "8")
        [sampleMovie none [] []] 1 col = some text) ∧
      (textPlacer (fun _ => "2023-11-14") (fun _ => "8") [sampleMovie none [] []] 1 3 = some "" ↔
        m.Rating = none) ∧
      (∀ v, m.Rating = some v →
        textPlacer (fun _ => "2023-11-14") (fun _ => "8") [sampleMovie none [] []] 1 3 =
          some (Itoa v)) ∧
      (textPlacer (fun _ => "2023-11-14") (fun _ => "8") [sampleMovie none [] []] 1 4 = some "" ↔
        m.ImdbRating = none) :=
  ⟨by decide, by decide, by decide,
    (textPlacer_cells (fun _ => "2023-11-14") (fun _ => "8") [sampleMovie none [] []]
      (fun _ => by simp)).1 1 (by decide) (by decide)⟩

/-- Every cell text that `fillTable` asks `textPlacer` for is defined: the
loop bounds keep `row - 1` inside the list. -/
theorem fillTableTexts_defined (formatDate : Int → String) (formatFloat : F32 → String)
    (movies : List Movie) :
    ∀ cells ∈ fillTableTexts formatDate formatFloat movies, ∀ cell ∈ cells, cell ≠ none := by
  intro cells hcells cell hcell
  unfold fillTableTexts at hcells
  obtain ⟨row, hrow, rfl⟩ := List.mem_map.1 hcells
  obtain ⟨col, _, rfl⟩ := List.mem_map.1 hcell
  rw [List.mem_range] at hrow
  by_cases h0 : row = 0
  · subst h0
    unfold textPlacer
    simp only [Nat.cast_zero, if_true]
    repeat' split
    all_goals simp
  · obtain ⟨m, hm⟩ := indexMovies_in_range movies row (by omega) (by omega)
    unfold textPlacer
    rw [if_neg (by omega), hm]
    simp only [Option.map_some']
    repeat' split
    all_goals simp

end Moviterm
